import Mathlib

/-!
Verification of the CanvasViewer docker (canvasviewer.py).

Shallow embedding of `src/canvasviewer/canvasviewer/canvasviewer.py`:

* the image-scaling worker (`Worker.process`) over a dimensional model of
  `QImage` (width, height and device pixel ratio; `scaled` follows the
  integer arithmetic of Qt's `QSize::scaled` for `KeepAspectRatio`);
* the docker state machine (`Canvasviewer`): the thread/worker bookkeeping of
  `refresh_thumbnail` / `on_worker_finished`, the pointer-state machine of
  `check_state`, the idle timers, and `canvasChanged`;
* `get_thumbnail_size` / `update_thumbnail_display` with Python error
  semantics made explicit (`Except PyErr`).

Host calls that can fail (thread stop waits, worker creation, exceptions in
cleanup) are resolved by explicit environment records (`RefreshEnv`,
`FinishEnv`) passed to each step, so every interleaving the code can see is a
choice of environment values.
-/

set_option autoImplicit false

namespace CanvasViewer

/-- Python `int()` applied to a rational: truncation toward zero. -/
def pyInt (q : ℚ) : ℤ :=
  if 0 ≤ q then ⌊q⌋ else ⌈q⌉

/-- Qt `Qt.AspectRatioMode` (only the modes that appear in the source). -/
inductive AspectMode
  | ignoreAspect
  | keepAspect
deriving DecidableEq, Repr

/-- Qt `Qt.TransformationMode`. -/
inductive TransformMode
  | fast
  | smooth
deriving DecidableEq, Repr

/-- Dimensional model of a `QImage`: pixel width, pixel height and device
pixel ratio.  The pixel contents are irrelevant to every claim (only sizes,
nullness and the DPR tag are observable), so they are not modelled. -/
structure QImage where
  w : Nat
  h : Nat
  dpr : ℚ
deriving DecidableEq, Repr

/-- `QImage()`: the null image (0 by 0, device pixel ratio 1). -/
def QImage.nullImage : QImage := ⟨0, 0, 1⟩

/-- `QImage.isNull`: an image with an empty dimension is null (a `QImage`
constructed with an empty size has no data). -/
def QImage.isNull (img : QImage) : Bool :=
  img.w = 0 || img.h = 0

/-- The integer size arithmetic of Qt's `QSize::scaled` (qsize.cpp): given a
source size and a requested size, compute the result size.  For
`KeepAspectRatio`, `rw = th * sw / sh` (truncating integer division) and the
height is kept exactly when `rw <= tw`. -/
def qsizeScaled (sw sh tw th : Nat) (aspect : AspectMode) : Nat × Nat :=
  match aspect with
  | .ignoreAspect => (tw, th)
  | .keepAspect =>
    if sw = 0 ∨ sh = 0 then (tw, th)
    else
      let rw := th * sw / sh
      if rw ≤ tw then (rw, th) else (tw, tw * sh / sw)

/-- Qt `QImage::scaled(w, h, aspectMode, transformMode)`, dimensional model.
A null source or an empty requested size yields a null image; a computed size
with an empty dimension also yields a null image (the transform produces no
data).  The transformation mode affects only pixel values, never dimensions,
and the device pixel ratio is carried over.  Targets are `ℤ` because the
Python call sites compute them with Python integers. -/
def QImage.scaled (img : QImage) (tw th : ℤ) (aspect : AspectMode)
    (_mode : TransformMode) : QImage :=
  if img.isNull then QImage.nullImage
  else if tw < 1 ∨ th < 1 then QImage.nullImage
  else
    let p := qsizeScaled img.w img.h tw.toNat th.toNat aspect
    if p.1 = 0 ∨ p.2 = 0 then QImage.nullImage
    else ⟨p.1, p.2, img.dpr⟩

/-- Qt `QImage::setDevicePixelRatio`: a no-op on a null image (the null
image has no metadata to set), otherwise replaces the DPR tag. -/
def QImage.setDevicePixelRatio (img : QImage) (r : ℚ) : QImage :=
  if img.isNull then img else ⟨img.w, img.h, r⟩

/-- The scalar configuration constants of class `Config` in the source
(the UI strings and the static host queries are external collaborators). -/
structure Config where
  min_width : ℤ
  min_height : ℤ
  margin : ℤ
  screen_ratio : ℤ
  ENABLE_DPI_CORRECTION : Bool
  thumbnail_min_size : ℤ
  thumbnail_upscale_factor : ℤ
  use_hybrid_scaling : Bool
  state_check_interval : Nat
  idle_check_interval : Nat
  idle_refresh_interval : Nat
deriving DecidableEq, Repr

/-- The values assigned in the source. -/
def Config.source : Config :=
  { min_width := 320
    min_height := 180
    margin := 2
    screen_ratio := 2
    ENABLE_DPI_CORRECTION := true
    thumbnail_min_size := 140
    thumbnail_upscale_factor := 2
    use_hybrid_scaling := true
    state_check_interval := 100
    idle_check_interval := 300
    idle_refresh_interval := 400 }

/-- One observable image operation performed by the scaling pipeline, used to
record which resampling calls `Worker.process` makes and in which order. -/
inductive ImgOp
  | scale (tw th : ℤ) (aspect : AspectMode) (mode : TransformMode)
  | setDPR (r : ℚ)
deriving DecidableEq, Repr

/-- `Worker.process` (lines 61-94 of the source), non-error path: the value
emitted through `finished` together with the trace of image operations, in
program order.  Mirrors the source statement by statement: physical size is
`int(logical * devicePixelRatio())`; pre-smooth at twice the source
resolution; fast resample to `physical * thumbnail_upscale_factor`; smooth
resample to the physical size; tag with the captured DPR.  Note the source
never consults `cfg.use_hybrid_scaling`. -/
def Worker.process (cfg : Config) (projection : QImage) (width height : ℤ) :
    QImage × List ImgOp :=
  let dpi_scale := projection.dpr
  let physical_width := pyInt (width * dpi_scale)
  let physical_height := pyInt (height * dpi_scale)
  let smoothed := projection.scaled ((projection.w : ℤ) * 2)
    ((projection.h : ℤ) * 2) .keepAspect .smooth
  let double_width := physical_width * cfg.thumbnail_upscale_factor
  let double_height := physical_height * cfg.thumbnail_upscale_factor
  let fast_scaled := smoothed.scaled double_width double_height
    .keepAspect .fast
  let final_scaled := fast_scaled.scaled physical_width physical_height
    .keepAspect .smooth
  (final_scaled.setDevicePixelRatio dpi_scale,
   [.scale ((projection.w : ℤ) * 2) ((projection.h : ℤ) * 2)
      .keepAspect .smooth,
    .scale double_width double_height .keepAspect .fast,
    .scale physical_width physical_height .keepAspect .smooth,
    .setDPR dpi_scale])

/-- The image `Worker.process` emits, with the `try/except` made explicit:
any internal failure (`fault = true`) is caught and the empty sentinel
`QImage()` is emitted instead (lines 95-97). -/
def Worker.processEmitted (fault : Bool) (cfg : Config) (projection : QImage)
    (width height : ℤ) : QImage :=
  if fault then QImage.nullImage
  else (Worker.process cfg projection width height).1

/-- The hybrid pipeline exactly as the specification words it (section 4.3,
steps 1-4): pre-smooth at twice the source resolution preserving aspect
ratio; fast-resample to twice the physical target (logical target times the
input's device pixel ratio); smooth-resample to the physical target; tag the
result with the original device pixel ratio. -/
def scalerSpecHybrid (image : QImage) (targetWidth targetHeight : ℤ) :
    QImage × List ImgOp :=
  let dpr := image.dpr
  let pw := pyInt (targetWidth * dpr)
  let ph := pyInt (targetHeight * dpr)
  let step1 := image.scaled (2 * (image.w : ℤ)) (2 * (image.h : ℤ))
    .keepAspect .smooth
  let step2 := step1.scaled (2 * pw) (2 * ph) .keepAspect .fast
  let step3 := step2.scaled pw ph .keepAspect .smooth
  (step3.setDevicePixelRatio dpr,
   [.scale (2 * (image.w : ℤ)) (2 * (image.h : ℤ)) .keepAspect .smooth,
    .scale (2 * pw) (2 * ph) .keepAspect .fast,
    .scale pw ph .keepAspect .smooth,
    .setDPR dpr])

/-- Modelled from the spec: the non-hybrid fallback mode (section 4.3), a
single smooth resample directly to the physical target size, tagged with the
input's device pixel ratio.  No code in the source implements this mode; the
definition exists to compare the claimed fallback against what
`Worker.process` actually does. -/
def scalerSpecSinglePass (image : QImage) (targetWidth targetHeight : ℤ) :
    QImage × List ImgOp :=
  let dpr := image.dpr
  let pw := pyInt (targetWidth * dpr)
  let ph := pyInt (targetHeight * dpr)
  ((image.scaled pw ph .keepAspect .smooth).setDevicePixelRatio dpr,
   [.scale pw ph .keepAspect .smooth, .setDPR dpr])

/-- A host document: identity and pixel dimensions (`Krita` documents are
external collaborators; only `width()`, `height()` and identity are read). -/
structure Doc where
  did : Nat
  w : Nat
  h : Nat
deriving DecidableEq, Repr

/-- One background scaling task: the `QThread`/`Worker` pair created by
`refresh_thumbnail`.  A task is in `Canvasviewer.tasks` exactly while its
OS thread is alive; `connected` records whether its `finished` signal is
still connected to `on_worker_finished`. -/
structure Task where
  tid : Nat
  docId : Nat
  connected : Bool
deriving DecidableEq, Repr

/-- Environment choices for one `refresh_thumbnail` call: whether the
bounded `wait(100)` on the previous thread succeeds, whether the stop block
raises, and whether worker/thread creation raises. -/
structure RefreshEnv where
  waitSucceeds : Bool
  stopRaises : Bool
  createRaises : Bool
deriving DecidableEq, Repr

/-- Environment choices for one `on_worker_finished` call: whether the
bounded `wait(200)` succeeds, whether the body of `update_thumbnail` raises
(its own `try/except` swallows it), and whether `finished.disconnect()`
raises (swallowed by the inner `try/except`; the disconnect then did not
take effect). -/
structure FinishEnv where
  wait200Succeeds : Bool
  deliverRaises : Bool
  disconnectRaises : Bool
deriving DecidableEq, Repr

/-- The mutable state of the `Canvasviewer` docker, including the
class-level thread bookkeeping (`_is_thread_running`, `_current_thread` /
`_current_worker` collapsed into `current` since they are always assigned
and cleared together) and the set of live worker threads. -/
structure Canvasviewer where
  doc : Option Doc
  state : Nat
  idle_state : Bool
  idleTimerActive : Bool
  idleSignalTimerActive : Bool
  is_thread_running : Bool
  current : Option Nat
  tasks : List Task
  nextId : Nat
  labelPixmap : Option QImage
  placeholderText : Bool
  current_thumbnail : Option QImage
deriving DecidableEq, Repr

/-- `Canvasviewer._current_thread.isRunning()`: the referenced thread is
among the live threads. -/
def Canvasviewer.currentTaskRunning (s : Canvasviewer) : Bool :=
  match s.current with
  | some t => s.tasks.any fun tk => tk.tid = t
  | none => false

/-- Lines 238-257 of `refresh_thumbnail`: create the worker and thread for
document `d`, connect the signals, set the running flag and start the
thread.  On a creation error the `except` branch resets the flag (line 257);
the failure point is modelled after the references are assigned (the thread
is never started, so no live task is added). -/
def Canvasviewer.refreshCreate (s : Canvasviewer) (d : Doc)
    (env : RefreshEnv) : Canvasviewer :=
  if env.createRaises then
    { s with current := some s.nextId, nextId := s.nextId + 1,
             is_thread_running := false }
  else
    { s with current := some s.nextId,
             tasks := ⟨s.nextId, d.did, true⟩ :: s.tasks,
             is_thread_running := true,
             nextId := s.nextId + 1 }

/-- `Canvasviewer.refresh_thumbnail` (lines 204-257).  No document: show the
placeholder and return.  Otherwise, if the running flag is set and the
referenced thread is running, `quit()` it and `wait(100)`: on timeout, log,
reset the flag and return (the thread stays alive and referenced); on an
exception in the stop block, reset the flag and return.  Then capture the
projection and create a new task.  Target-size computation (lines 228-236)
does not affect the bookkeeping and is elided here; `get_thumbnail_size` is
modelled separately. -/
def Canvasviewer.refresh_thumbnail (s : Canvasviewer) (env : RefreshEnv) :
    Canvasviewer :=
  match s.doc with
  | none => { s with placeholderText := true }
  | some d =>
    if s.is_thread_running then
      if env.stopRaises then { s with is_thread_running := false }
      else
        match s.current with
        | some t =>
          if s.tasks.any fun tk => tk.tid = t then
            if env.waitSucceeds then
              Canvasviewer.refreshCreate
                { s with tasks := s.tasks.filter fun tk => tk.tid ≠ t } d env
            else
              { s with is_thread_running := false }
          else Canvasviewer.refreshCreate s d env
        | none => Canvasviewer.refreshCreate s d env
    else Canvasviewer.refreshCreate s d env

/-- `Canvasviewer.update_thumbnail` (lines 298-306): on a non-null image,
convert to a pixmap, display it and cache it; a null image is skipped; any
exception in the body is caught and leaves the display unchanged. -/
def Canvasviewer.update_thumbnail (s : Canvasviewer) (image : QImage)
    (raiseInner : Bool) : Canvasviewer :=
  if raiseInner then s
  else if image.isNull then s
  else { s with labelPixmap := some image,
                placeholderText := false,
                current_thumbnail := some image }

/-- The observable steps of `on_worker_finished`, in program order. -/
inductive FEvent
  | deliver
  | disconnectStarted
  | disconnectFinished
  | quitThread
  | waitThread
  | deleteObjs
  | clearRefs
deriving DecidableEq, Repr

/-- `Canvasviewer.on_worker_finished` (lines 259-296): first deliver the
image via `update_thumbnail`, then — when the thread and worker references
are set — disconnect both signals (a disconnect error is swallowed by the
inner `try/except`), `quit()` the referenced thread and `wait(200)` (on
timeout only a warning is logged and the thread object is deleted while the
thread stays alive), and `deleteLater()` both objects; the `finally` block
unconditionally clears both references and resets the running flag.
Returns the new state and the trace of steps performed. -/
def Canvasviewer.on_worker_finished (s : Canvasviewer) (image : QImage)
    (fe : FinishEnv) : Canvasviewer × List FEvent :=
  let s1 := Canvasviewer.update_thumbnail s image fe.deliverRaises
  match s1.current with
  | some t =>
    let tasksDisc :=
      if fe.disconnectRaises then s1.tasks
      else s1.tasks.map fun tk =>
        if tk.tid = t then { tk with connected := false } else tk
    let tasksAfter :=
      if fe.wait200Succeeds then tasksDisc.filter fun tk => tk.tid ≠ t
      else tasksDisc
    ({ s1 with tasks := tasksAfter, current := none,
               is_thread_running := false },
     [.deliver, .disconnectStarted, .disconnectFinished, .quitThread,
      .waitThread, .deleteObjs, .clearRefs])
  | none =>
    ({ s1 with current := none, is_thread_running := false },
     [.deliver, .clearRefs])

/-- A live, still-connected worker emits `finished`: the queued delivery
runs `on_worker_finished` on the event-loop thread.  A task that was
disconnected (or whose thread is gone) never delivers. -/
def Canvasviewer.finishStep (s : Canvasviewer) (tid : Nat) (image : QImage)
    (fe : FinishEnv) : Canvasviewer :=
  match s.tasks.find? fun tk => tk.tid = tid with
  | some tk =>
    if tk.connected then (Canvasviewer.on_worker_finished s image fe).1
    else s
  | none => s

/-- The three tracked pointer buttons read by `check_state`. -/
structure Buttons where
  left : Bool
  right : Bool
  middle : Bool
deriving DecidableEq, Repr

/-- `Buttons` with at least one tracked button pressed. -/
def Buttons.anyPressed (b : Buttons) : Bool :=
  b.left || b.right || b.middle

/-- `Canvasviewer.check_state` (lines 320-340), one periodic tick with the
given pointer-button snapshot: in state 0, when no tracked button is
pressed, move to state 1, refresh if no thread is running and not idle, and
start the idle timer; in state 1, when a button is pressed, move to state 0,
clear the idle flag and stop the idle timer. -/
def Canvasviewer.check_state (s : Canvasviewer) (b : Buttons)
    (env : RefreshEnv) : Canvasviewer :=
  if s.state = 0 then
    if !b.anyPressed then
      let s1 := { s with state := 1 }
      let s2 := if !s1.is_thread_running && !s1.idle_state then
                  Canvasviewer.refresh_thumbnail s1 env
                else s1
      { s2 with idleTimerActive := true }
    else s
  else if s.state = 1 then
    if b.anyPressed then
      { s with state := 0, idle_state := false, idleTimerActive := false }
    else s
  else s

/-- `Canvasviewer.enter_idle_state` (lines 342-345): the idle timer fires;
set the idle flag and start the idle-refresh timer. -/
def Canvasviewer.enter_idle_state (s : Canvasviewer) : Canvasviewer :=
  if !s.idle_state then
    { s with idle_state := true, idleSignalTimerActive := true }
  else s

/-- `Canvasviewer.send_idle_signal` (lines 347-353): while idle, refresh if
no thread is running; once no longer idle, stop the idle-refresh timer. -/
def Canvasviewer.send_idle_signal (s : Canvasviewer) (env : RefreshEnv) :
    Canvasviewer :=
  if s.idle_state then
    if !s.is_thread_running then Canvasviewer.refresh_thumbnail s env else s
  else { s with idleSignalTimerActive := false }

/-- `Canvasviewer.canvasChanged` (lines 355-357): unconditionally refresh. -/
def Canvasviewer.canvasChanged (s : Canvasviewer) (env : RefreshEnv) :
    Canvasviewer :=
  Canvasviewer.refresh_thumbnail s env

/-- The fields set by `__init__` (lines 106-131) with active document `d`,
before `initUI` triggers the first refresh. -/
def Canvasviewer.preInit (d : Option Doc) : Canvasviewer :=
  { doc := d
    state := 0
    idle_state := false
    idleTimerActive := false
    idleSignalTimerActive := false
    is_thread_running := false
    current := none
    tasks := []
    nextId := 0
    labelPixmap := none
    placeholderText := false
    current_thumbnail := none }

/-- Construction of the docker: `__init__` then the `refresh_thumbnail`
call at the end of `initUI` (line 165). -/
def Canvasviewer.initState (d : Option Doc) (env : RefreshEnv) :
    Canvasviewer :=
  Canvasviewer.refresh_thumbnail (Canvasviewer.preInit d) env

/-- Python exceptions that the size computation can raise. -/
inductive PyErr
  | typeError
  | zeroDivisionError
deriving DecidableEq, Repr

/-- Python `min(x)` applied to a single float argument: `min` requires its
sole positional argument to be an iterable, so this raises `TypeError`
before producing any value. -/
def pyMinScalar (_x : ℚ) : Except PyErr ℚ :=
  .error .typeError

/-- Python float division, raising `ZeroDivisionError` on a zero divisor. -/
def pyDiv (a b : ℚ) : Except PyErr ℚ :=
  if b = 0 then .error .zeroDivisionError else .ok (a / b)

/-- `Canvasviewer.get_thumbnail_size` (lines 167-202).  Reads the thumbnail
label size, clamps the margin to 10, keeps the available size at least 1,
and takes the device pixel ratio (1 when DPI correction is off).  With no
active document it evaluates `int(min(available_width/dpi_scale))` — `min`
over a single scalar — which raises `TypeError`.  With a document it fits
the label to the canvas aspect ratio and returns logical pixel sizes.
The assignments to `canvas_width`/`canvas_height` (lines 185-186) are dead
and omitted. -/
def Canvasviewer.get_thumbnail_size (cfg : Config) (labelW labelH : Nat)
    (dpr : ℚ) (doc : Option Doc) : Except PyErr (ℤ × ℤ) :=
  let margin : ℤ := min cfg.margin 10
  let available_width : ℤ := max 1 ((labelW : ℤ) - margin * 2)
  let available_height : ℤ := max 1 ((labelH : ℤ) - margin * 2)
  let dpi_scale : ℚ := if cfg.ENABLE_DPI_CORRECTION then dpr else 1
  match doc with
  | none => do
    let mw ← pyDiv (available_width : ℚ) dpi_scale
    let vw ← pyMinScalar mw
    let mh ← pyDiv (available_height : ℚ) dpi_scale
    let vh ← pyMinScalar mh
    .ok (pyInt vw, pyInt vh)
  | some d => do
    let canvas_ratio ← pyDiv (d.w : ℚ) (d.h : ℚ)
    let label_ratio ← pyDiv (labelW : ℚ) (labelH : ℚ)
    if canvas_ratio > label_ratio then
      let width : ℚ := (labelW : ℚ) * dpi_scale
      let height ← pyDiv width canvas_ratio
      let heightI : ℤ := pyInt height
      let rw ← pyDiv width dpi_scale
      let rh ← pyDiv (heightI : ℚ) dpi_scale
      .ok (pyInt rw, pyInt rh)
    else
      let height : ℚ := (labelH : ℚ) * dpi_scale
      let widthI : ℤ := pyInt (height * canvas_ratio)
      let rw ← pyDiv (widthI : ℚ) dpi_scale
      let rh ← pyDiv height dpi_scale
      .ok (pyInt rw, pyInt rh)

/-- `Canvasviewer.update_thumbnail_display` (lines 308-318): nothing to do
without a cached thumbnail; otherwise query `get_thumbnail_size` (which may
raise — no document is checked here), rescale the cached thumbnail and
display it.  A raised exception propagates as `.error`. -/
def Canvasviewer.update_thumbnail_display (cfg : Config)
    (labelW labelH : Nat) (dpr : ℚ) (s : Canvasviewer) :
    Except PyErr Canvasviewer :=
  match s.current_thumbnail with
  | none => .ok s
  | some thumb => do
    let wh ← Canvasviewer.get_thumbnail_size cfg labelW labelH dpr s.doc
    let scaled_image := thumb.scaled wh.1 wh.2 .keepAspect .smooth
    .ok { s with labelPixmap := some scaled_image, placeholderText := false }

/-- One event delivered to the docker by the host event loop. -/
inductive Op
  | checkState (b : Buttons) (env : RefreshEnv)
  | enterIdle
  | idleTick (env : RefreshEnv)
  | docChanged (d : Option Doc) (env : RefreshEnv)
  | finish (tid : Nat) (image : QImage) (fe : FinishEnv)
deriving DecidableEq, Repr

/-- Event dispatch: timers, the host document-changed notification (the
active document is replaced, then `canvasChanged` fires) and worker
completions, all serialized on the event-loop thread. -/
def Canvasviewer.step (s : Canvasviewer) (op : Op) : Canvasviewer :=
  match op with
  | .checkState b env => Canvasviewer.check_state s b env
  | .enterIdle => Canvasviewer.enter_idle_state s
  | .idleTick env => Canvasviewer.send_idle_signal s env
  | .docChanged d env => Canvasviewer.canvasChanged { s with doc := d } env
  | .finish tid image fe => Canvasviewer.finishStep s tid image fe

/-- Run a sequence of events from a state. -/
def Canvasviewer.run (s : Canvasviewer) (ops : List Op) : Canvasviewer :=
  ops.foldl Canvasviewer.step s

end CanvasViewer

namespace CanvasViewer

/-- The dimensional part of the hybrid pipeline: the three chained `scaled`
calls of `Worker.process`, before the final DPR tag. -/
def hybridChain (sw sh : Nat) (dpr : ℚ) (PW PH : ℤ) : QImage :=
  (((⟨sw, sh, dpr⟩ : QImage).scaled ((sw : ℤ) * 2) ((sh : ℤ) * 2)
      .keepAspect .smooth).scaled (PW * 2) (PH * 2)
      .keepAspect .fast).scaled PW PH .keepAspect .smooth

/-- A concrete docker state with one live, referenced, connected task. -/
def busyState : Canvasviewer :=
  { Canvasviewer.preInit (some ⟨7, 1920, 1080⟩) with
    current := some 0
    tasks := [⟨0, 7, true⟩]
    is_thread_running := true
    nextId := 1 }

/-- Two sample documents. -/
def docA : Doc := ⟨1, 1920, 1080⟩

/-- A second sample document, replacing `docA` in scenarios. -/
def docB : Doc := ⟨2, 800, 600⟩

/-- A refresh environment where nothing fails. -/
def envOk : RefreshEnv := ⟨true, false, false⟩

/-- A refresh environment where the bounded stop wait times out. -/
def envTimeout : RefreshEnv := ⟨false, false, false⟩

/-- The docker state right after construction with document `docA`: one
in-flight task, referenced and connected, flag set. -/
def runningState : Canvasviewer := Canvasviewer.initState (some docA) envOk

/-- The state and label geometry used for the C10 witness: no document, one
cached thumbnail. -/
def cachedState : Canvasviewer :=
  { Canvasviewer.preInit none with current_thumbnail := some ⟨4, 4, 1⟩ }

/-- A refresh environment in which no stop wait times out and nothing in
the stop block raises. -/
def goodRefreshEnv (e : RefreshEnv) : Bool :=
  e.waitSucceeds && !e.stopRaises

/-- An event whose environment never abandons a thread: stop waits succeed
everywhere and cleanup waits succeed. -/
def goodOp : Op → Bool
  | .checkState _ e => goodRefreshEnv e
  | .enterIdle => true
  | .idleTick e => goodRefreshEnv e
  | .docChanged _ e => goodRefreshEnv e
  | .finish _ _ fe => fe.wait200Succeeds

/-- The single-task invariant: at most one live thread, the in-flight flag
is set exactly when a thread is live, and every live thread is the one the
class-level references point to. -/
def singleTaskInv (s : Canvasviewer) : Prop :=
  s.tasks.length ≤ 1 ∧
  (s.is_thread_running = true ↔ s.tasks ≠ []) ∧
  ∀ tk ∈ s.tasks, s.current = some tk.tid

lemma natAbs_sub_le (x y : ℤ) (m : ℕ) (h1 : x - y ≤ m) (h2 : y - x ≤ m) :
    (x - y).natAbs ≤ m := by omega

lemma qsizeScaled_keepAspect_spec (sw sh tw th : ℕ) (hsw : 0 < sw) (hsh : 0 < sh) :
    (th * sw / sh ≤ tw ∧ qsizeScaled sw sh tw th .keepAspect = (th * sw / sh, th)) ∨
    (tw < th * sw / sh ∧ qsizeScaled sw sh tw th .keepAspect = (tw, tw * sh / sw)) := by
  unfold qsizeScaled
  simp only [hsw.ne', hsh.ne', false_or, if_neg, or_self]
  by_cases h : th * sw / sh ≤ tw
  · left
    refine ⟨h, ?_⟩
    simp [h, hsw.ne', hsh.ne']
  · right
    refine ⟨by omega, ?_⟩
    simp [h, hsw.ne', hsh.ne']

lemma QImage.scaled_of_null (img : QImage) (tw th : ℤ) (a : AspectMode)
    (m : TransformMode) (h : img.isNull = true) :
    img.scaled tw th a m = QImage.nullImage := by
  simp [QImage.scaled, h]

lemma QImage.nullImage_isNull : QImage.nullImage.isNull = true := by
  simp [QImage.nullImage, QImage.isNull]

lemma QImage.setDevicePixelRatio_dims (img : QImage) (r : ℚ) :
    (img.setDevicePixelRatio r).w = img.w ∧ (img.setDevicePixelRatio r).h = img.h := by
  unfold QImage.setDevicePixelRatio
  split <;> simp

lemma scaled_double_eq (img : QImage) (hw : 0 < img.w) (hh : 0 < img.h)
    (m : TransformMode) :
    img.scaled ((img.w : ℤ) * 2) ((img.h : ℤ) * 2) .keepAspect m =
      ⟨img.w * 2, img.h * 2, img.dpr⟩ := by
  have hnull : img.isNull = false := by
    simp [QImage.isNull]; omega
  have ht1 : ¬ ((img.w : ℤ) * 2 < 1 ∨ (img.h : ℤ) * 2 < 1) := by
    push_neg
    constructor <;> [skip; skip] <;> omega
  have htn : ((img.w : ℤ) * 2).toNat = img.w * 2 := by omega
  have htm : ((img.h : ℤ) * 2).toNat = img.h * 2 := by omega
  have hq : qsizeScaled img.w img.h (img.w * 2) (img.h * 2) .keepAspect =
      (img.w * 2, img.h * 2) := by
    unfold qsizeScaled
    have h1 : img.h * 2 * img.w / img.h = img.w * 2 := by
      rw [show img.h * 2 * img.w = img.h * (img.w * 2) by ring]
      exact Nat.mul_div_cancel_left _ hh
    simp [hw.ne', hh.ne', h1]
  rw [QImage.scaled, hnull]
  simp only [Bool.false_eq_true, if_false, ht1, if_neg, htn, htm, hq]
  have h2 : ¬ (img.w * 2 = 0 ∨ img.h * 2 = 0) := by omega
  simp only [h2, if_false, if_neg]

lemma QImage.scaled_of_degenerate (img : QImage) (tw th : ℤ) (a : AspectMode)
    (m : TransformMode) (h : tw < 1 ∨ th < 1) :
    img.scaled tw th a m = QImage.nullImage := by
  unfold QImage.scaled
  by_cases hn : img.isNull = true
  · rw [if_pos hn]
  · rw [if_neg hn, if_pos h]

lemma QImage.scaled_pos_eq (img : QImage) (tw th : ℤ) (m : TransformMode)
    (h1 : img.isNull = false) (h2 : 1 ≤ tw) (h3 : 1 ≤ th) :
    img.scaled tw th .keepAspect m =
      (if (qsizeScaled img.w img.h tw.toNat th.toNat .keepAspect).1 = 0 ∨
          (qsizeScaled img.w img.h tw.toNat th.toNat .keepAspect).2 = 0
       then QImage.nullImage
       else ⟨(qsizeScaled img.w img.h tw.toNat th.toNat .keepAspect).1,
             (qsizeScaled img.w img.h tw.toNat th.toNat .keepAspect).2,
             img.dpr⟩) := by
  unfold QImage.scaled
  rw [if_neg (by simp [h1]), if_neg (by omega)]

lemma ar_of_div_w (c d sw sh : ℕ) (hsh : 0 < sh) (hc : c = d * sw / sh) :
    ((c : ℤ) * sh - (d : ℤ) * sw).natAbs ≤ max sw sh := by
  have h1 : c * sh ≤ d * sw := by
    rw [hc]
    exact Nat.div_mul_le_self _ _
  have h2 : d * sw < c * sh + sh := by
    have h3 : sh * (d * sw / sh) + d * sw % sh = d * sw := Nat.div_add_mod (d * sw) sh
    have h4 : d * sw % sh < sh := Nat.mod_lt (d * sw) hsh
    have h5 : c * sh = sh * (d * sw / sh) := by
      rw [hc]
      ring
    linarith
  have hmz : (sh : ℤ) ≤ ((max sw sh : ℕ) : ℤ) := by
    exact_mod_cast le_max_right sw sh
  have h1z : (c : ℤ) * sh ≤ (d : ℤ) * sw := by exact_mod_cast h1
  have h2z : (d : ℤ) * sw < (c : ℤ) * sh + sh := by exact_mod_cast h2
  apply natAbs_sub_le
  · have hz : (0 : ℤ) ≤ sh := by positivity
    linarith
  · linarith

lemma ar_of_div_h (c d sw sh : ℕ) (hsw : 0 < sw) (hd : d = c * sh / sw) :
    ((c : ℤ) * sh - (d : ℤ) * sw).natAbs ≤ max sw sh := by
  have h1 : d * sw ≤ c * sh := by
    rw [hd]
    exact Nat.div_mul_le_self _ _
  have h2 : c * sh < d * sw + sw := by
    have h3 : sw * (c * sh / sw) + c * sh % sw = c * sh := Nat.div_add_mod (c * sh) sw
    have h4 : c * sh % sw < sw := Nat.mod_lt (c * sh) hsw
    have h5 : d * sw = sw * (c * sh / sw) := by
      rw [hd]
      ring
    linarith
  have hmz : (sw : ℤ) ≤ ((max sw sh : ℕ) : ℤ) := by
    exact_mod_cast le_max_left sw sh
  have h1z : (d : ℤ) * sw ≤ (c : ℤ) * sh := by exact_mod_cast h1
  have h2z : (c : ℤ) * sh < (d : ℤ) * sw + sw := by exact_mod_cast h2
  apply natAbs_sub_le
  · linarith
  · have hz : (0 : ℤ) ≤ sw := by positivity
    linarith

set_option maxHeartbeats 1000000 in
lemma ar_caseC (sw sh pwN phN b c : ℕ) (hsw : 0 < sw) (hsh : 0 < sh)
    (hpw : 0 < pwN) (hph : 0 < phN) (hb : 0 < b) (hc : 0 < c)
    (hbdef : b = pwN * sh * 2 / sw)
    (hcdef : c = phN * (pwN * 2) / b)
    (hcle : c ≤ pwN) :
    ((c : ℤ) * sh - (phN : ℤ) * sw).natAbs ≤ max sw sh := by
  have hb1 : sw * b + (pwN * sh * 2) % sw = pwN * sh * 2 := by
    rw [hbdef]
    exact Nat.div_add_mod _ _
  have hb2 : (pwN * sh * 2) % sw < sw := Nat.mod_lt _ hsw
  have hc1 : b * c + (phN * (pwN * 2)) % b = phN * (pwN * 2) := by
    rw [hcdef]
    exact Nat.div_add_mod _ _
  have hc2 : (phN * (pwN * 2)) % b < b := Nat.mod_lt _ hb
  set r1 := (pwN * sh * 2) % sw with hr1def
  set r2 := (phN * (pwN * 2)) % b with hr2def
  have F1 : (sw : ℤ) * b + r1 = pwN * sh * 2 := by exact_mod_cast hb1
  have F2 : (b : ℤ) * c + r2 = phN * (pwN * 2) := by exact_mod_cast hc1
  have F1r : (0 : ℤ) ≤ r1 := by positivity
  have F2r : (0 : ℤ) ≤ r2 := by positivity
  have hb2z : (r1 : ℤ) < sw := by exact_mod_cast hb2
  have hc2z : (r2 : ℤ) < b := by exact_mod_cast hc2
  have hswz : (0 : ℤ) < sw := by exact_mod_cast hsw
  have hpwz : (0 : ℤ) < pwN := by exact_mod_cast hpw
  have hclez : (c : ℤ) ≤ pwN := by exact_mod_cast hcle
  have G1 : (c : ℤ) * (sw * b) + c * r1 = c * (pwN * sh * 2) := by
    rw [← F1]
    ring
  have G2 : (b : ℤ) * c * sw + r2 * sw = phN * (pwN * 2) * sw := by
    rw [← F2]
    ring
  have H1 : (c : ℤ) * r1 ≤ pwN * r1 :=
    mul_le_mul_of_nonneg_right hclez F1r
  have H2 : (pwN : ℤ) * r1 ≤ pwN * (sw - 1) := by
    apply mul_le_mul_of_nonneg_left _ (le_of_lt hpwz)
    linarith
  have H3 : (0 : ℤ) ≤ r2 * sw := by positivity
  have Hfin : (2 * (pwN : ℤ)) * (c * sh) < (2 * (pwN : ℤ)) * (phN * sw + sw) := by
    have hps : (0 : ℤ) < pwN * sw := mul_pos hpwz hswz
    nlinarith [G1, G2, H1, H2, H3, hps]
  have hupper : (c : ℤ) * sh < phN * sw + sw := by
    have h2p : (0 : ℤ) ≤ 2 * pwN := by positivity
    exact lt_of_mul_lt_mul_left Hfin h2p
  have K0 : (phN : ℤ) * (pwN * 2) < b * (c + 1) := by
    have hx : (b : ℤ) * (c + 1) = b * c + b := by ring
    linarith
  have K1 : (phN : ℤ) * (pwN * 2) * sw < b * (c + 1) * sw :=
    mul_lt_mul_of_pos_right K0 hswz
  have K2 : (b : ℤ) * sw ≤ pwN * sh * 2 := by linarith
  have K3 : ((c : ℤ) + 1) * (b * sw) ≤ (c + 1) * (pwN * sh * 2) := by
    apply mul_le_mul_of_nonneg_left K2
    linarith
  have Hfin2 : (2 * (pwN : ℤ)) * (phN * sw) < (2 * (pwN : ℤ)) * (c * sh + sh) := by
    nlinarith [K1, K3]
  have hlower : (phN : ℤ) * sw < c * sh + sh := by
    have h2p : (0 : ℤ) ≤ 2 * pwN := by positivity
    exact lt_of_mul_lt_mul_left Hfin2 h2p
  have hmzw : (sw : ℤ) ≤ ((max sw sh : ℕ) : ℤ) := by
    exact_mod_cast le_max_left sw sh
  have hmzh : (sh : ℤ) ≤ ((max sw sh : ℕ) : ℤ) := by
    exact_mod_cast le_max_right sw sh
  apply natAbs_sub_le
  · linarith
  · linarith

set_option maxHeartbeats 1000000 in
lemma hybridChain_ar (sw sh : ℕ) (dpr : ℚ) (PW PH : ℤ) :
    (((hybridChain sw sh dpr PW PH).w : ℤ) * sh -
     ((hybridChain sw sh dpr PW PH).h : ℤ) * sw).natAbs ≤ max sw sh := by
  by_cases h0 : sw = 0 ∨ sh = 0
  · have hn : (⟨sw, sh, dpr⟩ : QImage).isNull = true := by
      simp [QImage.isNull]
      omega
    rw [hybridChain, QImage.scaled_of_null _ _ _ _ _ hn,
        QImage.scaled_of_null _ _ _ _ _ QImage.nullImage_isNull,
        QImage.scaled_of_null _ _ _ _ _ QImage.nullImage_isNull]
    simp [QImage.nullImage]
  · push_neg at h0
    have hsw : 0 < sw := Nat.pos_of_ne_zero h0.1
    have hsh : 0 < sh := Nat.pos_of_ne_zero h0.2
    have hstep1 := scaled_double_eq ⟨sw, sh, dpr⟩ hsw hsh .smooth
    rw [hybridChain, hstep1]
    by_cases hP : PW < 1 ∨ PH < 1
    · have hD : PW * 2 < 1 ∨ PH * 2 < 1 := by omega
      rw [QImage.scaled_of_degenerate _ _ _ _ _ hD,
          QImage.scaled_of_null _ _ _ _ _ QImage.nullImage_isNull]
      simp [QImage.nullImage]
    · push_neg at hP
      obtain ⟨hPW, hPH⟩ := hP
      have hpw : 0 < PW.toNat := by omega
      have hph : 0 < PH.toNat := by omega
      have hPWt : (PW * 2).toNat = PW.toNat * 2 := by omega
      have hPHt : (PH * 2).toNat = PH.toNat * 2 := by omega
      have hin2 : (⟨sw * 2, sh * 2, dpr⟩ : QImage).isNull = false := by
        simp [QImage.isNull]
        omega
      rw [QImage.scaled_pos_eq _ _ _ _ hin2 (by omega) (by omega)]
      rw [show ((⟨sw * 2, sh * 2, dpr⟩ : QImage).w) = sw * 2 from rfl,
          show ((⟨sw * 2, sh * 2, dpr⟩ : QImage).h) = sh * 2 from rfl,
          hPWt, hPHt]
      rcases qsizeScaled_keepAspect_spec (sw * 2) (sh * 2) (PW.toNat * 2)
          (PH.toNat * 2) (by omega) (by omega) with ⟨hle, heq⟩ | ⟨hgt, heq⟩
      · -- step 2 keeps the full doubled target height
        rw [heq]
        have hI1 : PH.toNat * 2 * (sw * 2) / (sh * 2) = PH.toNat * sw * 2 / sh := by
          rw [show PH.toNat * 2 * (sw * 2) = PH.toNat * sw * 2 * 2 by ring]
          exact Nat.mul_div_mul_right _ _ (by norm_num)
        by_cases hz : PH.toNat * 2 * (sw * 2) / (sh * 2) = 0
        · rw [if_pos (Or.inl hz),
              QImage.scaled_of_null _ _ _ _ _ QImage.nullImage_isNull]
          simp [QImage.nullImage]
        · have hcond : ¬(PH.toNat * 2 * (sw * 2) / (sh * 2) = 0 ∨
              PH.toNat * 2 = 0) := by
            rintro (h | h)
            · exact hz h
            · omega
          rw [if_neg hcond]
          have hin3 : (⟨PH.toNat * 2 * (sw * 2) / (sh * 2), PH.toNat * 2, dpr⟩ :
              QImage).isNull = false := by
            simp [QImage.isNull]
            omega
          rw [QImage.scaled_pos_eq _ _ _ _ hin3 (by omega) (by omega)]
          rcases qsizeScaled_keepAspect_spec
              (PH.toNat * 2 * (sw * 2) / (sh * 2)) (PH.toNat * 2)
              PW.toNat PH.toNat (Nat.pos_of_ne_zero hz) (by omega) with
            ⟨hle3, heq3⟩ | ⟨hgt3, heq3⟩
          · rw [heq3]
            have hI2 : PH.toNat * (PH.toNat * 2 * (sw * 2) / (sh * 2)) /
                (PH.toNat * 2) = PH.toNat * sw * 2 / sh / 2 := by
              rw [Nat.mul_div_mul_left _ _ hph, hI1]
            have hI3 : PH.toNat * sw * 2 / sh / 2 = PH.toNat * sw / sh := by
              rw [Nat.div_div_eq_div_mul,
                  show PH.toNat * sw * 2 = PH.toNat * sw * 2 from rfl]
              exact Nat.mul_div_mul_right _ _ (by norm_num)
            by_cases hz3 : PH.toNat * (PH.toNat * 2 * (sw * 2) / (sh * 2)) /
                (PH.toNat * 2) = 0
            · rw [if_pos (Or.inl hz3)]
              simp [QImage.nullImage]
            · have hcond3 : ¬(PH.toNat * (PH.toNat * 2 * (sw * 2) / (sh * 2)) /
                  (PH.toNat * 2) = 0 ∨ PH.toNat = 0) := by
                rintro (h | h)
                · exact hz3 h
                · omega
              rw [if_neg hcond3]
              exact ar_of_div_w _ _ _ _ hsh (by rw [hI2, hI3])
          · exfalso
            have hI2 : PH.toNat * (PH.toNat * 2 * (sw * 2) / (sh * 2)) /
                (PH.toNat * 2) = PH.toNat * 2 * (sw * 2) / (sh * 2) / 2 :=
              Nat.mul_div_mul_left _ _ hph
            omega
      · -- step 2 keeps the full doubled target width
        rw [heq]
        have hI4 : PW.toNat * 2 * (sh * 2) / (sw * 2) = PW.toNat * sh * 2 / sw := by
          rw [show PW.toNat * 2 * (sh * 2) = PW.toNat * sh * 2 * 2 by ring]
          exact Nat.mul_div_mul_right _ _ (by norm_num)
        by_cases hbz : PW.toNat * 2 * (sh * 2) / (sw * 2) = 0
        · rw [if_pos (Or.inr hbz),
              QImage.scaled_of_null _ _ _ _ _ QImage.nullImage_isNull]
          simp [QImage.nullImage]
        · have hcond : ¬(PW.toNat * 2 = 0 ∨
              PW.toNat * 2 * (sh * 2) / (sw * 2) = 0) := by
            rintro (h | h)
            · omega
            · exact hbz h
          rw [if_neg hcond]
          have hin3 : (⟨PW.toNat * 2, PW.toNat * 2 * (sh * 2) / (sw * 2), dpr⟩ :
              QImage).isNull = false := by
            simp [QImage.isNull]
            omega
          rw [QImage.scaled_pos_eq _ _ _ _ hin3 (by omega) (by omega)]
          rcases qsizeScaled_keepAspect_spec (PW.toNat * 2)
              (PW.toNat * 2 * (sh * 2) / (sw * 2)) PW.toNat PH.toNat
              (by omega) (Nat.pos_of_ne_zero hbz) with
            ⟨hle3, heq3⟩ | ⟨hgt3, heq3⟩
          · rw [heq3]
            by_cases hz3 : PH.toNat * (PW.toNat * 2) /
                (PW.toNat * 2 * (sh * 2) / (sw * 2)) = 0
            · rw [if_pos (Or.inl hz3)]
              simp [QImage.nullImage]
            · have hcond3 : ¬(PH.toNat * (PW.toNat * 2) /
                  (PW.toNat * 2 * (sh * 2) / (sw * 2)) = 0 ∨ PH.toNat = 0) := by
                rintro (h | h)
                · exact hz3 h
                · omega
              rw [if_neg hcond3]
              exact ar_caseC sw sh PW.toNat PH.toNat
                (PW.toNat * 2 * (sh * 2) / (sw * 2))
                (PH.toNat * (PW.toNat * 2) / (PW.toNat * 2 * (sh * 2) / (sw * 2)))
                hsw hsh hpw hph (Nat.pos_of_ne_zero hbz)
                (Nat.pos_of_ne_zero hz3) hI4 rfl hle3
          · rw [heq3]
            have hI5 : PW.toNat * (PW.toNat * 2 * (sh * 2) / (sw * 2)) /
                (PW.toNat * 2) = PW.toNat * sh * 2 / sw / 2 := by
              rw [Nat.mul_div_mul_left _ _ hpw, hI4]
            have hI6 : PW.toNat * sh * 2 / sw / 2 = PW.toNat * sh / sw := by
              rw [Nat.div_div_eq_div_mul]
              exact Nat.mul_div_mul_right _ _ (by norm_num)
            by_cases hz3 : PW.toNat * (PW.toNat * 2 * (sh * 2) / (sw * 2)) /
                (PW.toNat * 2) = 0
            · rw [if_pos (Or.inr hz3)]
              simp [QImage.nullImage]
            · have hcond3 : ¬(PW.toNat = 0 ∨
                  PW.toNat * (PW.toNat * 2 * (sh * 2) / (sw * 2)) /
                    (PW.toNat * 2) = 0) := by
                rintro (h | h)
                · omega
                · exact hz3 h
              rw [if_neg hcond3]
              exact ar_of_div_h _ _ _ _ hsw (by rw [hI5, hI6])

lemma update_thumbnail_of_null (s : Canvasviewer) (img : QImage) (r : Bool)
    (h : img.isNull = true) : Canvasviewer.update_thumbnail s img r = s := by
  unfold Canvasviewer.update_thumbnail
  cases r <;> simp [h]

lemma update_thumbnail_current (s : Canvasviewer) (img : QImage) (r : Bool) :
    (Canvasviewer.update_thumbnail s img r).current = s.current := by
  unfold Canvasviewer.update_thumbnail
  split_ifs <;> rfl

/-- C4: on the non-error path `Worker.process` performs exactly the four
steps of the specification's hybrid pipeline, in order — aspect-preserving
smooth pre-scale at twice the source resolution, fast resample to twice the
physical target (logical target times the input's device pixel ratio),
smooth resample to the physical target, and a DPR tag — and whenever the
result is a real (non-null) image its device pixel ratio equals the
input's. -/
theorem c4_hybrid_pipeline_refinement (projection : QImage)
    (width height : ℤ) :
    Worker.process Config.source projection width height =
      scalerSpecHybrid projection width height ∧
    ((Worker.process Config.source projection width height).1.isNull = false →
      (Worker.process Config.source projection width height).1.dpr =
        projection.dpr) := by
  constructor
  · unfold Worker.process scalerSpecHybrid Config.source
    ring_nf
  · intro hne
    unfold Worker.process at hne ⊢
    set fin := ((projection.scaled ((projection.w : ℤ) * 2)
        ((projection.h : ℤ) * 2) .keepAspect .smooth).scaled
        (pyInt (width * projection.dpr) * Config.source.thumbnail_upscale_factor)
        (pyInt (height * projection.dpr) * Config.source.thumbnail_upscale_factor)
        .keepAspect .fast).scaled (pyInt (width * projection.dpr))
        (pyInt (height * projection.dpr)) .keepAspect .smooth with hfin
    by_cases hn : fin.isNull = true
    · simp [QImage.setDevicePixelRatio, hn] at hne
    · simp only [QImage.setDevicePixelRatio, hn, Bool.false_eq_true,
        if_false, if_neg]

/-- Witness for C4 at a concrete capture: the emitted image is real and
carries the input's device pixel ratio. -/
theorem c4_hybrid_pipeline_refinement_witness :
    (Worker.process Config.source ⟨4, 4, 1⟩ 2 2).1.isNull = false ∧
    (Worker.process Config.source ⟨4, 4, 1⟩ 2 2).1.dpr =
      (⟨4, 4, 1⟩ : QImage).dpr := by
  have hA : (Worker.process Config.source ⟨4, 4, 1⟩ 2 2).1 = ⟨2, 2, 1⟩ := by
    norm_num [Worker.process, QImage.scaled, qsizeScaled, pyInt,
      QImage.isNull, QImage.nullImage, QImage.setDevicePixelRatio,
      Config.source, Int.toNat]
  have hN : (Worker.process Config.source ⟨4, 4, 1⟩ 2 2).1.isNull = false := by
    rw [hA]
    rfl
  exact ⟨hN, (c4_hybrid_pipeline_refinement ⟨4, 4, 1⟩ 2 2).2 hN⟩

/-- C8: for every captured image and target size, the scaler output's
dimensions satisfy the one-pixel aspect-ratio bound
`|outW * srcH - outH * srcW| <= max srcW srcH`, i.e. for the emitted height
the emitted width is within one pixel of the exact aspect-correct width, or
symmetrically for the emitted width; in particular this holds for all
positive target dimensions. -/
theorem c8_aspect_ratio_within_one_pixel (projection : QImage)
    (width height : ℤ) :
    (((Worker.process Config.source projection width height).1.w : ℤ) *
        projection.h -
      ((Worker.process Config.source projection width height).1.h : ℤ) *
        projection.w).natAbs ≤ max projection.w projection.h := by
  obtain ⟨sw, sh, dpr⟩ := projection
  have hchain : (Worker.process Config.source ⟨sw, sh, dpr⟩ width height).1 =
      (hybridChain sw sh dpr (pyInt (width * dpr))
        (pyInt (height * dpr))).setDevicePixelRatio dpr := rfl
  rw [hchain]
  have hd := QImage.setDevicePixelRatio_dims
    (hybridChain sw sh dpr (pyInt (width * dpr)) (pyInt (height * dpr))) dpr
  rw [hd.1, hd.2]
  exact hybridChain_ar sw sh dpr _ _

/-- C9 (code bug): the scaler's output and operation trace are entirely
independent of the `use_hybrid_scaling` toggle — the source never reads it —
and with the toggle off the scaler still performs the three-pass hybrid
pipeline rather than the single smooth pass the configuration comment and
the specification promise. -/
theorem c9_hybrid_flag_unused :
    (∀ (b1 b2 : Bool) (projection : QImage) (width height : ℤ),
      Worker.process { Config.source with use_hybrid_scaling := b1 }
          projection width height =
        Worker.process { Config.source with use_hybrid_scaling := b2 }
          projection width height) ∧
    Worker.process { Config.source with use_hybrid_scaling := false }
        ⟨4, 4, 1⟩ 2 2 ≠
      scalerSpecSinglePass ⟨4, 4, 1⟩ 2 2 := by
  constructor
  · intro b1 b2 projection width height
    rfl
  · intro h
    have h2 := congrArg (fun p => p.2.length) h
    simp [Worker.process, scalerSpecSinglePass] at h2

/-- C5: on an internal scaling failure the worker emits the empty sentinel
`QImage()` instead of propagating, and the completion handler treats it as
"skip this refresh": the displayed pixmap and the cached thumbnail are left
exactly as they were. -/
theorem c5_failure_sentinel_skips_refresh (cfg : Config) (projection : QImage)
    (width height : ℤ) (s : Canvasviewer) (fe : FinishEnv) :
    (Worker.processEmitted true cfg projection width height).isNull = true ∧
    (Canvasviewer.on_worker_finished s
        (Worker.processEmitted true cfg projection width height)
        fe).1.labelPixmap = s.labelPixmap ∧
    (Canvasviewer.on_worker_finished s
        (Worker.processEmitted true cfg projection width height)
        fe).1.current_thumbnail = s.current_thumbnail := by
  have hnull : Worker.processEmitted true cfg projection width height =
      QImage.nullImage := rfl
  rw [hnull]
  have hupd : Canvasviewer.update_thumbnail s QImage.nullImage
      fe.deliverRaises = s :=
    update_thumbnail_of_null s QImage.nullImage fe.deliverRaises rfl
  refine ⟨rfl, ?_, ?_⟩ <;>
  · unfold Canvasviewer.on_worker_finished
    rw [hupd]
    cases hc : s.current <;> simp [hc]

/-- C3: whenever the worker signals completion, `on_worker_finished` first
delivers the image to the display, and then — whatever the environment does
(delivery error, disconnect error, stop-wait timeout) — performs the release
steps in order and unconditionally clears the worker/thread references and
resets the in-flight flag to false. -/
theorem c3_completion_delivers_then_releases (s : Canvasviewer)
    (image : QImage) (fe : FinishEnv) :
    (Canvasviewer.on_worker_finished s image fe).1.current = none ∧
    (Canvasviewer.on_worker_finished s image fe).1.is_thread_running = false ∧
    (Canvasviewer.on_worker_finished s image fe).2.head? =
      some FEvent.deliver ∧
    (Canvasviewer.on_worker_finished s image fe).2.getLast? =
      some FEvent.clearRefs ∧
    (s.current ≠ none →
      (Canvasviewer.on_worker_finished s image fe).2 =
        [FEvent.deliver, FEvent.disconnectStarted, FEvent.disconnectFinished,
         FEvent.quitThread, FEvent.waitThread, FEvent.deleteObjs,
         FEvent.clearRefs]) := by
  have hcur := update_thumbnail_current s image fe.deliverRaises
  cases hc : s.current
  · rw [hc] at hcur
    simp only [Canvasviewer.on_worker_finished, hcur]
    simp [hc]
  · rw [hc] at hcur
    simp only [Canvasviewer.on_worker_finished, hcur]
    simp [hc]

/-- Witness for C3 at a concrete state with a referenced task. -/
theorem c3_completion_delivers_then_releases_witness :
    busyState.current ≠ none ∧
    (Canvasviewer.on_worker_finished busyState ⟨3, 3, 1⟩
        ⟨true, false, false⟩).2 =
      [FEvent.deliver, FEvent.disconnectStarted, FEvent.disconnectFinished,
       FEvent.quitThread, FEvent.waitThread, FEvent.deleteObjs,
       FEvent.clearRefs] :=
  ⟨by decide,
   (c3_completion_delivers_then_releases busyState ⟨3, 3, 1⟩
      ⟨true, false, false⟩).2.2.2.2 (by decide)⟩

lemma refresh_thumbnail_interaction (s : Canvasviewer) (env : RefreshEnv) :
    (Canvasviewer.refresh_thumbnail s env).state = s.state ∧
    (Canvasviewer.refresh_thumbnail s env).idle_state = s.idle_state ∧
    (Canvasviewer.refresh_thumbnail s env).idleTimerActive =
      s.idleTimerActive := by
  unfold Canvasviewer.refresh_thumbnail Canvasviewer.refreshCreate
  rcases hd : s.doc with _ | d
  · exact ⟨rfl, rfl, rfl⟩
  · by_cases h1 : s.is_thread_running <;>
      by_cases h2 : env.stopRaises <;>
      by_cases h3 : env.createRaises <;>
      rcases hc : s.current with _ | t <;>
      simp [h1, h2, h3, hc] <;>
      split_ifs <;>
      simp

lemma check_state_state (s : Canvasviewer) (b : Buttons) (env : RefreshEnv)
    (h : s.state = 0 ∨ s.state = 1) :
    (Canvasviewer.check_state s b env).state =
      if b.anyPressed = true then 0 else 1 := by
  unfold Canvasviewer.check_state
  rcases h with h | h <;>
    rw [h] <;>
    by_cases hb : b.anyPressed = true <;>
    by_cases hr : (!s.is_thread_running && !s.idle_state) = true <;>
    simp [hb, hr, h, (refresh_thumbnail_interaction _ env).1]

/-- C6: as observed after the periodic state-check ticks, the interaction
state is 0 (a tracked button held) exactly when some tracked button is
pressed at that tick, and 1 (released/idle side) exactly when none is —
for every sequence of ticks from a freshly constructed docker. -/
theorem c6_interaction_state_iff_pressed (d : Option Doc) (e0 : RefreshEnv)
    (ops : List (Buttons × RefreshEnv)) (b : Buttons) (e : RefreshEnv) :
    (((ops ++ [(b, e)]).foldl
        (fun s p => Canvasviewer.check_state s p.1 p.2)
        (Canvasviewer.initState d e0)).state = 0 ↔ b.anyPressed = true) ∧
    (((ops ++ [(b, e)]).foldl
        (fun s p => Canvasviewer.check_state s p.1 p.2)
        (Canvasviewer.initState d e0)).state = 1 ↔ b.anyPressed = false) := by
  have hkeep : ∀ (l : List (Buttons × RefreshEnv)) (s : Canvasviewer),
      s.state = 0 ∨ s.state = 1 →
      ((l.foldl (fun s p => Canvasviewer.check_state s p.1 p.2) s).state = 0 ∨
       (l.foldl (fun s p => Canvasviewer.check_state s p.1 p.2) s).state = 1) := by
    intro l
    induction l with
    | nil => exact fun s h => h
    | cons p t ih =>
      intro s h
      rw [List.foldl_cons]
      refine ih _ ?_
      rw [check_state_state s p.1 p.2 h]
      split_ifs <;> simp
  have hinit : (Canvasviewer.initState d e0).state = 0 := by
    unfold Canvasviewer.initState
    rw [(refresh_thumbnail_interaction _ e0).1]
    rfl
  have hbase : (Canvasviewer.initState d e0).state = 0 ∨
      (Canvasviewer.initState d e0).state = 1 := Or.inl hinit
  rw [List.foldl_append, List.foldl_cons, List.foldl_nil,
      check_state_state _ b e (hkeep ops _ hbase)]
  by_cases hb : b.anyPressed = true <;> simp [hb]

/-- C2 counterexample: from a reachable state with a running task, a refresh
whose bounded stop wait times out does NOT leave the in-flight flag true —
the source resets `_is_thread_running` to `False` (line 220) before
returning, so the state is changed, contradicting the claim. -/
theorem c2_flag_reset_counterexample :
    runningState.is_thread_running = true ∧
    Canvasviewer.currentTaskRunning runningState = true ∧
    ¬((Canvasviewer.refresh_thumbnail runningState
        envTimeout).is_thread_running = true) := by
  decide

/-- C2 amended: when a refresh finds the previous task still running and the
bounded stop wait times out, the call logs, drops the refresh for this cycle
(no task created, tasks and references untouched) and resets the in-flight
flag to false — so the next periodic check is free to re-attempt. -/
theorem c2_amended_stop_timeout_soft_failure (s : Canvasviewer) (d : Doc)
    (env : RefreshEnv) (hdoc : s.doc = some d)
    (hrun : s.is_thread_running = true)
    (hcur : Canvasviewer.currentTaskRunning s = true)
    (hnoraise : env.stopRaises = false)
    (hwait : env.waitSucceeds = false) :
    Canvasviewer.refresh_thumbnail s env =
      { s with is_thread_running := false } := by
  rcases hc : s.current with _ | t
  · unfold Canvasviewer.currentTaskRunning at hcur
    rw [hc] at hcur
    simp at hcur
  · have hany : (s.tasks.any fun tk => tk.tid = t) = true := by
      have h2 := hcur
      unfold Canvasviewer.currentTaskRunning at h2
      rw [hc] at h2
      exact h2
    unfold Canvasviewer.refresh_thumbnail
    simp only [hdoc]
    rw [if_pos hrun, if_neg (by simp [hnoraise])]
    simp only [hc]
    rw [if_pos hany, if_neg (by simp [hwait])]

/-- Witness for the amended C2 at the concrete reachable state. -/
theorem c2_amended_stop_timeout_soft_failure_witness :
    Canvasviewer.refresh_thumbnail runningState envTimeout =
      { runningState with is_thread_running := false } :=
  c2_amended_stop_timeout_soft_failure runningState docA envTimeout
    (by decide) (by decide) (by decide) rfl rfl

/-- C7 counterexample: document `docA` has a task in flight; the host
replaces the document with `docB` and `canvasChanged` fires, but the bounded
stop wait times out, so the document-changed refresh is dropped (no task is
ever created for `docB`: `nextId` still 1) and when the abandoned task later
completes, its stale image is what gets displayed. -/
theorem c7_stale_delivery_counterexample :
    (Canvasviewer.run runningState
        [Op.docChanged (some docB) envTimeout,
         Op.finish 0 ⟨8, 8, 1⟩ ⟨true, false, false⟩]).labelPixmap =
      some ⟨8, 8, 1⟩ ∧
    (Canvasviewer.run runningState
        [Op.docChanged (some docB) envTimeout,
         Op.finish 0 ⟨8, 8, 1⟩ ⟨true, false, false⟩]).doc = some docB ∧
    (Canvasviewer.run runningState
        [Op.docChanged (some docB) envTimeout,
         Op.finish 0 ⟨8, 8, 1⟩ ⟨true, false, false⟩]).nextId = 1 := by
  decide

/-- C7 amended: a document-changed notification always invokes the refresh
and the refresh consults neither the press/release state nor the idle flag;
and when a prior task is in flight and its cooperative stop completes within
the bounded wait, the notification immediately creates a replacement task
for the new document.  (When the bounded wait times out, the refresh is
dropped for that cycle — see the counterexample.) -/
theorem c7_amended_doc_changed_bypass_and_replace (s : Canvasviewer)
    (d : Doc) (env : RefreshEnv) (t : ℕ) :
    (∀ (s2 : Canvasviewer) (e2 : RefreshEnv) (x : ℕ) (y : Bool),
      Canvasviewer.canvasChanged { s2 with state := x, idle_state := y } e2 =
        { Canvasviewer.canvasChanged s2 e2 with
          state := x
          idle_state := y }) ∧
    (s.is_thread_running = true → s.current = some t →
      (s.tasks.any fun tk => tk.tid = t) = true →
      env.stopRaises = false → env.waitSucceeds = true →
      env.createRaises = false →
      Canvasviewer.step s (Op.docChanged (some d) env) =
        { s with
          doc := some d
          current := some s.nextId
          tasks := ⟨s.nextId, d.did, true⟩ ::
            s.tasks.filter fun tk => tk.tid ≠ t
          is_thread_running := true
          nextId := s.nextId + 1 }) := by
  constructor
  · intro s2 e2 x y
    unfold Canvasviewer.canvasChanged Canvasviewer.refresh_thumbnail
      Canvasviewer.refreshCreate
    rcases hd : s2.doc with _ | d2 <;>
      by_cases h1 : s2.is_thread_running <;>
      by_cases h2 : e2.stopRaises <;>
      by_cases h3 : e2.createRaises <;>
      rcases hc : s2.current with _ | t2 <;>
      simp [hd, h1, h2, h3, hc] <;>
      split_ifs <;>
      rfl
  · intro hrun hcur hany hraise hwait hcreate
    unfold Canvasviewer.step Canvasviewer.canvasChanged
      Canvasviewer.refresh_thumbnail
    simp only
    rw [if_pos hrun, if_neg (by simp [hraise])]
    simp only [hcur]
    rw [if_pos hany, if_pos (by simp [hwait])]
    unfold Canvasviewer.refreshCreate
    rw [if_neg (by simp [hcreate])]

/-- Witness for the amended C7: in-flight task for `docA`, stop succeeds,
the document-changed refresh immediately replaces it with a `docB` task. -/
theorem c7_amended_doc_changed_bypass_and_replace_witness :
    Canvasviewer.step runningState (Op.docChanged (some docB) envOk) =
      { runningState with
        doc := some docB
        current := some runningState.nextId
        tasks := ⟨runningState.nextId, docB.did, true⟩ ::
          runningState.tasks.filter fun tk => tk.tid ≠ 0
        is_thread_running := true
        nextId := runningState.nextId + 1 } :=
  (c7_amended_doc_changed_bypass_and_replace runningState docB envOk 0).2
    (by decide) (by decide) (by decide) rfl rfl rfl

/-- C10: with no active document (and any nonzero device pixel ratio),
`get_thumbnail_size` raises `TypeError` — its no-document return applies
`min()` to a single scalar — instead of returning a fallback size, and
`update_thumbnail_display`, which calls it without checking for a document,
propagates the same error instead of redisplaying the cached thumbnail. -/
theorem c10_no_document_type_error (labelW labelH : ℕ) (dpr : ℚ)
    (s : Canvasviewer) (hdpr : dpr ≠ 0) (hdoc : s.doc = none)
    (hthumb : s.current_thumbnail.isSome = true) :
    Canvasviewer.get_thumbnail_size Config.source labelW labelH dpr none =
      .error .typeError ∧
    Canvasviewer.update_thumbnail_display Config.source labelW labelH dpr s =
      .error .typeError := by
  have hget : Canvasviewer.get_thumbnail_size Config.source labelW labelH
      dpr none = .error .typeError := by
    unfold Canvasviewer.get_thumbnail_size
    simp [pyDiv, pyMinScalar, Config.source, hdpr]
    rfl
  refine ⟨hget, ?_⟩
  rcases hthm : s.current_thumbnail with _ | thumb
  · rw [hthm] at hthumb
    simp at hthumb
  · unfold Canvasviewer.update_thumbnail_display
    rw [hthm, hdoc, hget]
    rfl

/-- Witness for C10 at a concrete geometry and cached thumbnail. -/
theorem c10_no_document_type_error_witness :
    Canvasviewer.get_thumbnail_size Config.source 320 180 1 none =
      .error .typeError ∧
    Canvasviewer.update_thumbnail_display Config.source 320 180 1
        cachedState = .error .typeError :=
  c10_no_document_type_error 320 180 1 cachedState (by norm_num) rfl rfl

/-- C1 counterexample: a refresh whose bounded stop wait times out resets
the flag but leaves the old worker thread alive; the next periodic tick then
creates a second task, so two background scaling tasks are live at once. -/
theorem c1_two_live_tasks_counterexample :
    (Canvasviewer.run runningState
        [Op.docChanged (some docA) envTimeout,
         Op.checkState ⟨false, false, false⟩ envOk]).tasks.length = 2 := by
  decide

lemma update_thumbnail_bookkeeping (s : Canvasviewer) (img : QImage)
    (r : Bool) :
    (Canvasviewer.update_thumbnail s img r).tasks = s.tasks ∧
    (Canvasviewer.update_thumbnail s img r).is_thread_running =
      s.is_thread_running := by
  unfold Canvasviewer.update_thumbnail
  split_ifs <;> exact ⟨rfl, rfl⟩

lemma filter_ne_nil_of_all (l : List Task) (t : ℕ)
    (h : ∀ tk ∈ l, tk.tid = t) :
    (l.filter fun tk => tk.tid ≠ t) = [] := by
  induction l with
  | nil => rfl
  | cons a as ih =>
    have ha := h a (by simp)
    rw [List.filter_cons]
    simp only [ha]
    simp
    intro x hx
    exact h x (by simp [hx])

lemma refreshCreate_inv (s : Canvasviewer) (d : Doc) (env : RefreshEnv)
    (h : s.tasks = []) :
    singleTaskInv (Canvasviewer.refreshCreate s d env) := by
  unfold Canvasviewer.refreshCreate singleTaskInv
  by_cases hcr : env.createRaises = true <;> simp [hcr, h]

lemma refresh_inv (s : Canvasviewer) (env : RefreshEnv)
    (hg : goodRefreshEnv env = true) (hinv : singleTaskInv s) :
    singleTaskInv (Canvasviewer.refresh_thumbnail s env) := by
  obtain ⟨hlen, hiff, hall⟩ := hinv
  have hwait : env.waitSucceeds = true := by
    unfold goodRefreshEnv at hg
    simp at hg
    exact hg.1
  have hnoraise : ¬(env.stopRaises = true) := by
    unfold goodRefreshEnv at hg
    simp at hg
    simp [hg.2]
  unfold Canvasviewer.refresh_thumbnail
  rcases hd : s.doc with _ | d
  · exact ⟨hlen, hiff, hall⟩
  · dsimp only
    by_cases hrun : s.is_thread_running = true
    · rw [if_pos hrun, if_neg hnoraise]
      have hne : s.tasks ≠ [] := hiff.mp hrun
      obtain ⟨tk0, htk0⟩ : ∃ tk, tk ∈ s.tasks := by
        rcases hts : s.tasks with _ | ⟨a, l⟩
        · exact absurd hts hne
        · exact ⟨a, by simp⟩
      have hcur : s.current = some tk0.tid := hall tk0 htk0
      simp only [hcur]
      have hany : (s.tasks.any fun tk => tk.tid = tk0.tid) = true := by
        simp only [List.any_eq_true]
        exact ⟨tk0, htk0, by simp⟩
      rw [if_pos hany, if_pos hwait]
      apply refreshCreate_inv
      apply filter_ne_nil_of_all
      intro tk htk
      have h2 := hall tk htk
      rw [hcur] at h2
      exact (Option.some_injective _ h2.symm)
    · rw [if_neg hrun]
      apply refreshCreate_inv
      by_contra hne
      exact hrun (hiff.mpr hne)

lemma singleTaskInv_of_reset (s : Canvasviewer) (h1 : s.tasks = [])
    (h2 : s.is_thread_running = false) : singleTaskInv s := by
  unfold singleTaskInv
  simp [h1, h2]

lemma tasksAfter_nil (l : List Task) (t : ℕ) (dr : Bool)
    (h : ∀ tk ∈ l, tk.tid = t) :
    ((if dr = true then l
      else l.map fun tk2 =>
        if tk2.tid = t then { tk2 with connected := false } else tk2).filter
      fun tk2 => tk2.tid ≠ t) = [] := by
  apply filter_ne_nil_of_all
  intro x hx
  by_cases hdr : dr = true
  · rw [if_pos hdr] at hx
    exact h x hx
  · rw [if_neg hdr] at hx
    obtain ⟨y, hy, hxy⟩ := List.mem_map.mp hx
    by_cases hyt : y.tid = t
    · rw [if_pos hyt] at hxy
      rw [← hxy]
      exact hyt
    · rw [if_neg hyt] at hxy
      rw [← hxy]
      exact h y hy

lemma finish_inv (s : Canvasviewer) (tid : ℕ) (img : QImage)
    (fe : FinishEnv) (hg : fe.wait200Succeeds = true)
    (hinv : singleTaskInv s) :
    singleTaskInv (Canvasviewer.finishStep s tid img fe) := by
  obtain ⟨hlen, hiff, hall⟩ := hinv
  unfold Canvasviewer.finishStep
  rcases hf : s.tasks.find? fun tk => tk.tid = tid with _ | tk
  · rw [hf]
    exact ⟨hlen, hiff, hall⟩
  · rw [hf]
    dsimp only
    by_cases hcon : tk.connected = true
    · rw [if_pos hcon]
      have htkmem : tk ∈ s.tasks := List.mem_of_find?_eq_some hf
      have hcur : s.current = some tk.tid := hall tk htkmem
      have hbk := update_thumbnail_bookkeeping s img fe.deliverRaises
      have hcur1 := update_thumbnail_current s img fe.deliverRaises
      rw [hcur] at hcur1
      unfold Canvasviewer.on_worker_finished
      simp only [hcur1, hbk.1]
      apply singleTaskInv_of_reset
      · show (if fe.wait200Succeeds = true then _ else _) = _
        rw [if_pos hg]
        apply tasksAfter_nil
        intro x hx
        have h2 := hall x hx
        rw [hcur] at h2
        exact Option.some_injective _ h2.symm
      · rfl
    · rw [if_neg hcon]
      exact ⟨hlen, hiff, hall⟩

lemma check_state_inv (s : Canvasviewer) (b : Buttons) (env : RefreshEnv)
    (hg : goodRefreshEnv env = true) (hinv : singleTaskInv s) :
    singleTaskInv (Canvasviewer.check_state s b env) := by
  unfold Canvasviewer.check_state
  by_cases h0 : s.state = 0
  · rw [if_pos h0]
    by_cases hb : (!b.anyPressed) = true
    · rw [if_pos hb]
      dsimp only
      by_cases hc : (!s.is_thread_running && !s.idle_state) = true
      · rw [if_pos hc]
        exact refresh_inv _ env hg hinv
      · rw [if_neg hc]
        exact hinv
    · rw [if_neg hb]
      exact hinv
  · rw [if_neg h0]
    by_cases h1 : s.state = 1
    · rw [if_pos h1]
      by_cases hb : b.anyPressed = true
      · rw [if_pos hb]
        exact hinv
      · rw [if_neg hb]
        exact hinv
    · rw [if_neg h1]
      exact hinv

lemma send_idle_signal_inv (s : Canvasviewer) (env : RefreshEnv)
    (hg : goodRefreshEnv env = true) (hinv : singleTaskInv s) :
    singleTaskInv (Canvasviewer.send_idle_signal s env) := by
  unfold Canvasviewer.send_idle_signal
  by_cases hid : s.idle_state = true
  · rw [if_pos hid]
    by_cases hr : (!s.is_thread_running) = true
    · rw [if_pos hr]
      exact refresh_inv _ env hg hinv
    · rw [if_neg hr]
      exact hinv
  · rw [if_neg hid]
    exact hinv

lemma enter_idle_state_inv (s : Canvasviewer) (hinv : singleTaskInv s) :
    singleTaskInv (Canvasviewer.enter_idle_state s) := by
  unfold Canvasviewer.enter_idle_state
  split_ifs <;> exact hinv

lemma step_inv (s : Canvasviewer) (op : Op) (hg : goodOp op = true)
    (hinv : singleTaskInv s) : singleTaskInv (Canvasviewer.step s op) := by
  rcases op with ⟨b, env⟩ | _ | env | ⟨d, env⟩ | ⟨tid, img, fe⟩
  · exact check_state_inv s b env hg hinv
  · exact enter_idle_state_inv s hinv
  · exact send_idle_signal_inv s env hg hinv
  · exact refresh_inv _ env hg hinv
  · exact finish_inv s tid img fe hg hinv

lemma refresh_le (s : Canvasviewer) (env : RefreshEnv) :
    (Canvasviewer.refresh_thumbnail s env).tasks.length ≤
      s.tasks.length + 1 := by
  unfold Canvasviewer.refresh_thumbnail Canvasviewer.refreshCreate
  rcases hd : s.doc with _ | d
  · simp
  · have hfl := List.length_filter_le
      (fun tk => tk.tid ≠ (s.current.getD 0)) s.tasks
    dsimp only
    by_cases h1 : s.is_thread_running = true <;>
      by_cases h2 : env.stopRaises = true <;>
      by_cases h3 : env.createRaises = true <;>
      rcases hc : s.current with _ | t <;>
      simp [h1, h2, h3, hc] <;>
      split_ifs <;>
      simp <;>
      have h8 := List.length_filter_le (fun tk => tk.tid ≠ t) s.tasks <;>
      have h9 := List.length_filter_le (fun tk => !decide (tk.tid = t))
        s.tasks <;>
      omega

/-- C1 amended: refresh requests are never queued (one call creates at most
one task), and as long as no cooperative stop times out (and nothing in the
stop block raises), at most one background scaling task is live at any
instant along any event sequence.  (When a stop wait does time out, the
flag is reset while the old thread lives on, and a later refresh can make a
second live task — see the counterexample.) -/
theorem c1_amended_single_task_unless_abandoned :
    (∀ (s : Canvasviewer) (env : RefreshEnv),
      (Canvasviewer.refresh_thumbnail s env).tasks.length ≤
        s.tasks.length + 1) ∧
    (∀ (d : Option Doc) (e0 : RefreshEnv) (ops : List Op),
      goodRefreshEnv e0 = true →
      (∀ op ∈ ops, goodOp op = true) →
      (Canvasviewer.run (Canvasviewer.initState d e0) ops).tasks.length ≤
        1) := by
  constructor
  · exact refresh_le
  · intro d e0 ops hg0 hgs
    have hinit : singleTaskInv (Canvasviewer.initState d e0) := by
      apply refresh_inv _ _ hg0
      refine ⟨?_, ?_, ?_⟩ <;> simp [Canvasviewer.preInit]
    have hrun : ∀ (l : List Op) (s : Canvasviewer),
        (∀ op ∈ l, goodOp op = true) → singleTaskInv s →
        singleTaskInv (Canvasviewer.run s l) := by
      intro l
      induction l with
      | nil => exact fun s _ h => h
      | cons op t ih =>
        intro s hg h
        have hstep := step_inv s op (hg op (by simp)) h
        have htail : ∀ o ∈ t, goodOp o = true :=
          fun o ho => hg o (by simp [ho])
        unfold Canvasviewer.run at ih ⊢
        rw [List.foldl_cons]
        exact ih _ htail hstep
    exact (hrun ops _ hgs hinit).1

/-- Witness for the amended C1 on a concrete good event sequence. -/
theorem c1_amended_single_task_unless_abandoned_witness :
    (Canvasviewer.run (Canvasviewer.initState (some docA) envOk)
        [Op.checkState ⟨false, false, false⟩ envOk,
         Op.finish 0 ⟨4, 4, 1⟩ ⟨true, false, false⟩]).tasks.length ≤ 1 :=
  c1_amended_single_task_unless_abandoned.2 (some docA) envOk
    [Op.checkState ⟨false, false, false⟩ envOk,
     Op.finish 0 ⟨4, 4, 1⟩ ⟨true, false, false⟩] (by decide) (by decide)

end CanvasViewer
